import Mathlib

/-!
Shallow embedding of the Kahoot leaderboard dashboard (`leaderboard.py`) and
proofs about the spec's claims.

The core data path is modelled as follows.

* `read_data` works on the raw cell grid returned by the spreadsheet client
  (a list of rows of strings, the first row being the header row) and builds
  a `Table`: the non-`Name` column headers (`date_columns`) plus the data
  rows, each row holding the `Name` cell and the score cells under the date
  columns in column order.  The empty `pd.DataFrame()` results are modelled
  by `none`.
* Score cells are modelled as integers (Kahoot point values are integral;
  `pd.to_numeric(...).fillna(0)` is the cell parser, kept as a parameter of
  `read_data` since no claim depends on its details).  The derived
  `avg_score` and `win_rate` fields are exact rationals.
* `calculate_leaderboard` follows the Python function statement by
  statement: per-row statistics over the strictly positive cells, the
  per-date first-place check against every row's score in that column,
  the `games_played > 0` filter, and the final stable descending sort by
  `total_score` (Python's `list.sort(key=..., reverse=True)` is a stable
  sort, i.e. insertion sort with the relation "my total is at least
  yours").
* `should_send_alert` is viewed as a predicate on the current WAT (UTC+1)
  time, encoded as the signed number of seconds between the alert epoch
  2025-07-21 17:00 WAT (a Monday) and now.  Python's floor division on the
  involved non-negative quantities agrees with Lean's `Int` division.
-/

namespace Kahoot

/-- Python `str.strip()`: drop leading and trailing whitespace.  (Defined on
the character list so that it evaluates by kernel reduction.) -/
def stripStr (s : String) : String :=
  String.mk (((s.data.dropWhile Char.isWhitespace).reverse.dropWhile
    Char.isWhitespace).reverse)

/-- One data row of the `Team` sheet after `read_data`: the `Name` cell and
the score cells under the date columns, in column order. -/
structure Row where
  name : String
  scores : List ℤ
deriving DecidableEq

/-- The DataFrame handed to `calculate_leaderboard`: the non-`Name` column
headers (`date_columns`) and the data rows.  The `Name` column itself is
always present, so `df.empty` is exactly `rows = []`. -/
structure Table where
  dateCols : List String
  rows : List Row
deriving DecidableEq

/-- One entry of `final_leaderboard` (the dict built per player row). -/
structure PlayerStats where
  player : String
  total_score : ℤ
  games_played : ℕ
  best_score : ℤ
  avg_score : ℚ
  win_rate : ℚ
  first_place_count : ℕ
  positions : List String
  player_scores : List (String × ℤ)
deriving DecidableEq, Inhabited

/-- `row[date_col]` for the `j`-th date column.  DataFrames are rectangular,
so for well-formed tables the index is always in range. -/
def Row.cell (r : Row) (j : ℕ) : ℤ := r.scores.getD j 0

/-- The scores visited by `for date_col in date_columns` for one row. -/
def cellsOf (t : Table) (r : Row) : List ℤ :=
  (List.range t.dateCols.length).map (fun j => r.cell j)

/-- `df[df[date_col] > 0][date_col].tolist()`: every row's strictly positive
score in the `j`-th date column. -/
def colPositives (t : Table) (j : ℕ) : List ℤ :=
  (t.rows.map (fun r => r.cell j)).filter (fun s => 0 < s)

/-- `date_scores[0]` after `date_scores.sort(reverse=True)`: the maximum of
the list.  The fold base 0 never wins because the function is only applied
to nonempty lists of strictly positive scores. -/
def listMax (l : List ℤ) : ℤ := l.foldl max 0

/-- `date_scores.count(player_score)`. -/
def countEq (l : List ℤ) (s : ℤ) : ℕ := l.countP (fun x => decide (x = s))

/-- The first-place check for one row and one date column: the row's score is
positive, `date_scores` is nonempty, the score equals the maximum
`date_scores[0]`, and `date_scores.count(player_score) == 1`. -/
def firstPlaceCredit (t : Table) (r : Row) (j : ℕ) : Bool :=
  let s := r.cell j
  let ds := colPositives t j
  decide (0 < s) && !ds.isEmpty && decide (s = listMax ds) && decide (countEq ds s = 1)

/-- The loop computing `first_place_count` for one row. -/
def firstPlaceCountOf (t : Table) (r : Row) : ℕ :=
  (List.range t.dateCols.length).countP (fun j => firstPlaceCredit t r j)

/-- The row's strictly positive cell scores (`if score > 0` in the stats
loop): the scores counted as games played. -/
def positivesOf (t : Table) (r : Row) : List ℤ :=
  (cellsOf t r).filter (fun s => 0 < s)

/-- `total_score` accumulated for one row. -/
def totalScoreOf (t : Table) (r : Row) : ℤ := (positivesOf t r).sum

/-- `games_played` accumulated for one row. -/
def gamesPlayedOf (t : Table) (r : Row) : ℕ := (positivesOf t r).length

/-- `best_score` accumulated for one row (starts at 0, updated only on
strictly positive scores). -/
def bestScoreOf (t : Table) (r : Row) : ℤ := listMax (positivesOf t r)

/-- The `player_scores` list accumulated for one row. -/
def playerScoresOf (t : Table) (r : Row) : List (String × ℤ) :=
  (List.range t.dateCols.length).filterMap (fun j =>
    let s := r.cell j
    if 0 < s then some (t.dateCols.getD j "", s) else none)

/-- The PlayerStats dict appended to `final_leaderboard` for one row. -/
def mkStats (t : Table) (r : Row) : PlayerStats :=
  { player := stripStr r.name
    total_score := totalScoreOf t r
    games_played := gamesPlayedOf t r
    best_score := bestScoreOf t r
    avg_score := (totalScoreOf t r : ℚ) / (gamesPlayedOf t r : ℚ)
    win_rate := ((firstPlaceCountOf t r : ℚ) / (gamesPlayedOf t r : ℚ)) * 100
    first_place_count := firstPlaceCountOf t r
    positions := List.replicate (firstPlaceCountOf t r) "1ST PLACE" ++
      List.replicate (gamesPlayedOf t r - firstPlaceCountOf t r) "PARTICIPATED"
    player_scores := playerScoresOf t r }

/-- The body of the `for _, row in df.iterrows()` loop: `none` when the row
is skipped (empty stripped name via `continue`, or `games_played == 0`),
otherwise the PlayerStats dict appended to `final_leaderboard`. -/
def playerEntry (t : Table) (r : Row) : Option PlayerStats :=
  if stripStr r.name = "" then none
  else if 0 < gamesPlayedOf t r then some (mkStats t r)
  else none

/-- The comparison behind `sort(key=lambda x: x['total_score'], reverse=True)`:
`a` may stay before `b` exactly when `a`'s total is at least `b`'s. -/
def byTotalDesc (a b : PlayerStats) : Prop := b.total_score ≤ a.total_score

instance : DecidableRel byTotalDesc :=
  fun a b => inferInstanceAs (Decidable (b.total_score ≤ a.total_score))

instance : IsTotal PlayerStats byTotalDesc :=
  ⟨fun a b => le_total b.total_score a.total_score⟩

instance : IsTrans PlayerStats byTotalDesc :=
  ⟨fun _ _ _ hab hbc => le_trans hbc hab⟩

/-- The entries appended to `final_leaderboard`, in input-row order
(before the final sort). -/
def entriesOf (t : Table) : List PlayerStats :=
  t.rows.filterMap (playerEntry t)

/-- `calculate_leaderboard`. -/
def calculate_leaderboard (t : Table) : List PlayerStats :=
  if t.rows.isEmpty then []
  else if t.dateCols.isEmpty then []
  else List.insertionSort byTotalDesc (entriesOf t)

/-- `read_data` on the raw cell grid returned by `get_all_values` (first row
is the header row).  `parse` stands for the per-cell
`pd.to_numeric(..., errors='coerce').fillna(0)` coercion (non-numeric and
empty cells become 0).  `none` is the empty `pd.DataFrame()` returned when
the grid is empty or the `Name` header is missing.  Rows whose stripped
`Name` cell is empty are dropped; the date columns are all non-`Name`
columns, in header order. -/
def read_data (parse : String → ℤ) (values : List (List String)) : Option Table :=
  match values with
  | [] => none
  | headers :: dataRows =>
    if "Name" ∈ headers then
      let nameIdx := headers.indexOf "Name"
      some
        { dateCols := headers.filter (fun c => c ≠ "Name")
          rows := dataRows.filterMap (fun cs =>
            let nm := cs.getD nameIdx ""
            if stripStr nm = "" then none
            else some
              { name := nm
                scores := ((List.range headers.length).filter
                    (fun j => headers.getD j "" ≠ "Name")).map
                  (fun j => parse (cs.getD j "")) }) }
    else none

/-- The badge list built in `create_dashboard` for the data row of 1-based
rank `rank`: the rank medal, then 🔥 for `first_place_count >= 2`, then ⭐
for `best_score >= 9000`. -/
def badgesFor (rank : ℕ) (first_place_count : ℕ) (best_score : ℤ) : List String :=
  (if rank = 1 then ["🏆"]
   else if rank = 2 then ["🥈"]
   else if rank = 3 then ["🥉"]
   else []) ++
  (if 2 ≤ first_place_count then ["🔥"] else []) ++
  (if 9000 ≤ best_score then ["⭐"] else [])

/-- The badge sets of the rendered data rows: the row at index `i` of the
leaderboard is rendered with rank `i + 1`. -/
def dashboardBadges (lb : List PlayerStats) : List (List String) :=
  lb.enum.map (fun ip => badgesFor (ip.1 + 1) ip.2.first_place_count ip.2.best_score)

/-!
The scheduler.  `wat` is the current WAT (UTC+1) civil time, encoded as the
signed number of seconds from the alert epoch 2025-07-21 17:00 WAT — a
Monday — to now.  The epoch's day therefore starts `17 * 3600` seconds
before the epoch, and Python's `weekday()` numbers Monday as 0.  All the
divisions below have positive divisors and (on the paths where they matter)
non-negative dividends, so Lean's Euclidean `Int` division and Python's
floor division agree.
-/

/-- `wat_now.weekday()`: days since the epoch's midnight, mod 7 (Monday = 0). -/
def watWeekday (wat : ℤ) : ℤ := ((17 * 3600 + wat) / 86400) % 7

/-- `wat_now.hour`. -/
def watHour (wat : ℤ) : ℤ := ((17 * 3600 + wat) % 86400) / 3600

/-- `wat_now.minute`. -/
def watMinute (wat : ℤ) : ℤ := ((17 * 3600 + wat) % 3600) / 60

/-- `(wat_now.date() - start_date.date()).days`: whole calendar days between
the epoch's date and the current date. -/
def daysSinceStart (wat : ℤ) : ℤ := (17 * 3600 + wat) / 86400

/-- `should_send_alert`, as a predicate on the current WAT time. -/
def should_send_alert (wat : ℤ) : Bool :=
  if wat < 0 then false
  else if watWeekday wat ≠ 0 ∨ watHour wat ≠ 17 then false
  else if ¬ (0 ≤ watMinute wat ∧ watMinute wat < 60) then false
  else decide ((daysSinceStart wat / 7) % 2 = 0)

/-- The alert condition as the claim states it: not before the epoch, a
Monday, hour 17, and an even number of whole weeks elapsed since the
epoch. -/
def alertSpec (wat : ℤ) : Prop :=
  0 ≤ wat ∧ watWeekday wat = 0 ∧ watHour wat = 17 ∧ (wat / 604800) % 2 = 0

/-- The claim's wording of the first-place rule for one row and one date
column: a strictly positive score that is the unique maximum among all the
strictly positive scores in that date column. -/
def isUniqueDateMax (t : Table) (r : Row) (j : ℕ) : Prop :=
  0 < r.cell j ∧ (∀ x ∈ colPositives t j, x ≤ r.cell j) ∧
    countEq (colPositives t j) (r.cell j) = 1

/-! ### Example tables used as concrete instances -/

/-- Scenario A of the spec: two players tie on the single game date. -/
def tableTie : Table := ⟨["01-Jan-2025"], [⟨"Alice", [100]⟩, ⟨"Bob", [100]⟩]⟩

/-- The same player name on two distinct input rows. -/
def tableDupName : Table := ⟨["01-Jan-2025"], [⟨"Alice", [100]⟩, ⟨"Alice", [50]⟩]⟩

/-- Scenario B of the spec: a clear winner over two players. -/
def tableWin : Table := ⟨["01-Jan-2025"], [⟨"Alice", [100]⟩, ⟨"Bob", [50]⟩]⟩

/-- Two date columns, one of them unplayed by the single player. -/
def tableSolo : Table := ⟨["01-Jan-2025", "02-Jan-2025"], [⟨"Alice", [100, 0]⟩]⟩

/-- A non-empty table whose only column is `Name`. -/
def tableNoDates : Table := ⟨[], [⟨"Alice", []⟩]⟩

/-! ### List helper lemmas -/

theorem le_foldl_max (l : List ℤ) (a : ℤ) :
    a ≤ l.foldl max a ∧ ∀ x ∈ l, x ≤ l.foldl max a := by
  induction l generalizing a with
  | nil => simp
  | cons y ys ih =>
    refine ⟨le_trans (le_max_left a y) (ih (max a y)).1, ?_⟩
    intro x hx
    rcases List.mem_cons.mp hx with rfl | hx
    · exact le_trans (le_max_right a x) (ih (max a x)).1
    · exact (ih (max a y)).2 x hx

theorem foldl_max_mem (l : List ℤ) (a : ℤ) :
    l.foldl max a = a ∨ l.foldl max a ∈ l := by
  induction l generalizing a with
  | nil => exact Or.inl rfl
  | cons y ys ih =>
    rw [List.foldl_cons]
    rcases ih (max a y) with h | h
    · rw [h]
      rcases max_choice a y with h' | h'
      · exact Or.inl h'
      · exact Or.inr (by rw [h']; exact List.mem_cons_self y ys)
    · exact Or.inr (List.mem_cons_of_mem y h)

theorem le_listMax {l : List ℤ} {x : ℤ} (hx : x ∈ l) : x ≤ listMax l :=
  (le_foldl_max l 0).2 x hx

theorem listMax_mem {l : List ℤ} (hne : l ≠ []) (hpos : ∀ x ∈ l, 0 < x) :
    listMax l ∈ l := by
  rcases foldl_max_mem l 0 with h | h
  · obtain ⟨x, hx⟩ := List.exists_mem_of_ne_nil l hne
    have hle : x ≤ listMax l := le_listMax hx
    rw [listMax, h] at hle
    exact absurd (hpos x hx) (not_lt.mpr hle)
  · exact h

/-- If every element that `f` keeps is mapped by `g` to what `h` does on its
source, then mapping `g` over a `filterMap f` is a sublist of mapping `h`. -/
theorem map_filterMap_sublist {α β γ : Type _} (f : α → Option β) (g : β → γ)
    (h : α → γ) (H : ∀ a b, f a = some b → g b = h a) :
    ∀ l : List α, ((l.filterMap f).map g).Sublist (l.map h)
  | [] => by simp
  | a :: l => by
    rw [List.map_cons]
    cases hfa : f a with
    | none =>
      rw [List.filterMap_cons_none hfa]
      exact (map_filterMap_sublist f g h H l).cons (h a)
    | some b =>
      rw [List.filterMap_cons_some hfa, List.map_cons, H a b hfa]
      exact (map_filterMap_sublist f g h H l).cons₂ (h a)

/-! ### Characterizations of the leaderboard computation -/

theorem playerEntry_eq_some_iff {t : Table} {r : Row} {p : PlayerStats} :
    playerEntry t r = some p ↔
      stripStr r.name ≠ "" ∧ 0 < gamesPlayedOf t r ∧ p = mkStats t r := by
  unfold playerEntry
  split_ifs with h1 h2
  · simp [h1]
  · simp [h1, h2, eq_comm]
  · simp [h1, h2]

theorem playerEntry_of_dateCols_nil {t : Table} {r : Row}
    (h : t.dateCols = []) : playerEntry t r = none := by
  have : gamesPlayedOf t r = 0 := by
    simp [gamesPlayedOf, positivesOf, cellsOf, h]
  simp [playerEntry, this]

theorem entriesOf_dateCols_nil {t : Table} (h : t.dateCols = []) :
    entriesOf t = [] := by
  rw [entriesOf, List.filterMap_eq_nil_iff]
  exact fun r _ => playerEntry_of_dateCols_nil h

theorem leaderboard_perm_entriesOf (t : Table) :
    (calculate_leaderboard t).Perm (entriesOf t) := by
  unfold calculate_leaderboard
  split_ifs with h1 h2
  · rw [entriesOf, List.isEmpty_iff.mp h1]; rfl
  · rw [entriesOf_dateCols_nil (List.isEmpty_iff.mp h2)]
  · exact List.perm_insertionSort _ _

theorem mem_leaderboard_iff {t : Table} {p : PlayerStats} :
    p ∈ calculate_leaderboard t ↔ ∃ r ∈ t.rows, playerEntry t r = some p := by
  rw [(leaderboard_perm_entriesOf t).mem_iff, entriesOf, List.mem_filterMap]

theorem leaderboard_pairwise (t : Table) :
    (calculate_leaderboard t).Pairwise byTotalDesc := by
  unfold calculate_leaderboard
  split_ifs
  · exact List.Pairwise.nil
  · exact List.Pairwise.nil
  · exact List.sorted_insertionSort byTotalDesc _

/-- Inserting `x` commutes with filtering on any exact total-score value:
the elements `orderedInsert` passes over all have a strictly larger total
than `x`, hence a total different from `x`'s. -/
theorem filter_orderedInsert (q : ℤ) (x : PlayerStats) (l : List PlayerStats) :
    (List.orderedInsert byTotalDesc x l).filter
        (fun p => decide (p.total_score = q)) =
      if x.total_score = q then
        x :: l.filter (fun p => decide (p.total_score = q))
      else l.filter (fun p => decide (p.total_score = q)) := by
  induction l with
  | nil =>
    simp only [List.orderedInsert, List.filter]
    split_ifs with h <;> simp [h]
  | cons y ys ih =>
    rw [List.orderedInsert]
    by_cases hxy : byTotalDesc x y
    · rw [if_pos hxy]
      by_cases hxq : x.total_score = q
      · simp [List.filter_cons, hxq]
      · simp [List.filter_cons, hxq]
    · rw [if_neg hxy]
      have hlt : x.total_score < y.total_score := lt_of_not_le hxy
      by_cases hyq : y.total_score = q
      · have hxq : x.total_score ≠ q := by intro h; omega
        simp [List.filter_cons, hyq, hxq, ih]
      · simp only [List.filter_cons, hyq, ih, decide_eq_true_eq]
        by_cases hxq : x.total_score = q
        · simp [hxq]
        · simp [hxq]

/-- The final sort never reorders entries with equal totals: filtering the
sorted leaderboard on one exact total gives the same list as filtering the
unsorted entry list. -/
theorem filter_insertionSort (q : ℤ) (l : List PlayerStats) :
    (List.insertionSort byTotalDesc l).filter
        (fun p => decide (p.total_score = q)) =
      l.filter (fun p => decide (p.total_score = q)) := by
  induction l with
  | nil => rfl
  | cons x l ih =>
    rw [List.insertionSort, filter_orderedInsert, ih, List.filter_cons]
    by_cases h : x.total_score = q
    · simp [h]
    · simp [h]

/-! ### The claims -/

/-- Claim C1 as stated is false on the code: `calculate_leaderboard` never
groups rows by player, so the table with `Alice` on two rows produces two
`PlayerStats` records named `Alice` — the player name is not a unique key
of the output. -/
theorem c1_counterexample :
    ¬ (((calculate_leaderboard tableDupName).map PlayerStats.player).Nodup) := by
  decide

/-- C1 (amended): the aggregation is per input row, not per player name; one
PlayerStats record is produced for each row with a nonempty stripped name
and at least one positive score.  Consequently the player name is a unique
key of the returned leaderboard provided the input rows carry pairwise
distinct stripped names (as in the one-row-per-player Team sheet layout);
a name occurring on several rows yields several records. -/
theorem c1_names_unique (t : Table)
    (h : (t.rows.map (fun r => stripStr r.name)).Nodup) :
    ((calculate_leaderboard t).map PlayerStats.player).Nodup := by
  have hperm := (leaderboard_perm_entriesOf t).map PlayerStats.player
  rw [hperm.nodup_iff]
  refine List.Nodup.sublist ?_ h
  apply map_filterMap_sublist
  intro r p hp
  obtain ⟨-, -, rfl⟩ := playerEntry_eq_some_iff.mp hp
  rfl

/-- Witness for C1 (amended) at a concrete two-row table with distinct
names. -/
theorem c1_names_unique_witness :
    ((tableWin.rows.map (fun r => stripStr r.name)).Nodup) ∧
      ((calculate_leaderboard tableWin).map PlayerStats.player).Nodup :=
  ⟨by decide, c1_names_unique tableWin (by decide)⟩

/-- Unfolding of the boolean first-place check into its four conditions. -/
theorem firstPlaceCredit_eq_true_iff {t : Table} {r : Row} {j : ℕ} :
    firstPlaceCredit t r j = true ↔
      0 < r.cell j ∧ colPositives t j ≠ [] ∧
        r.cell j = listMax (colPositives t j) ∧
        countEq (colPositives t j) (r.cell j) = 1 := by
  unfold firstPlaceCredit
  simp [Bool.and_eq_true, decide_eq_true_eq, and_assoc]

theorem colPositives_pos {t : Table} {j : ℕ} :
    ∀ x ∈ colPositives t j, 0 < x := by
  intro x hx
  have := (List.mem_filter.mp hx).2
  simpa using this

/-- Claim C2: a row is credited a first place for a date column exactly when
its score there is strictly positive and is the unique maximum among all
rows' strictly positive scores in that column; on the Alice/Bob tie table
both players end with one game played and no first-place credit. -/
theorem c2_first_place_unique_max :
    (∀ (t : Table) (r : Row) (j : ℕ),
        firstPlaceCredit t r j = true ↔ isUniqueDateMax t r j) ∧
      (calculate_leaderboard tableTie).map
          (fun p => (p.player, p.games_played, p.first_place_count)) =
        [("Alice", 1, 0), ("Bob", 1, 0)] := by
  constructor
  · intro t r j
    rw [firstPlaceCredit_eq_true_iff]
    unfold isUniqueDateMax
    constructor
    · rintro ⟨hs, hne, hmax, hcount⟩
      refine ⟨hs, ?_, hcount⟩
      intro x hx
      rw [hmax]
      exact le_listMax hx
    · rintro ⟨hs, hmax, hcount⟩
      have hmem : r.cell j ∈ colPositives t j := by
        have hpos : 0 < (colPositives t j).countP
            (fun x => decide (x = r.cell j)) := by
          rw [countEq] at hcount
          omega
        obtain ⟨x, hx, hxe⟩ := List.countP_pos_iff.mp hpos
        rw [decide_eq_true_eq] at hxe
        rwa [hxe] at hx
      have hne : colPositives t j ≠ [] := List.ne_nil_of_mem hmem
      have hmaxmem := listMax_mem hne colPositives_pos
      exact ⟨hs, hne,
        le_antisymm (le_listMax hmem) (hmax _ hmaxmem), hcount⟩
  · decide

/-- Claim C4: the leaderboard is sorted by total score descending, is a
permutation of the per-row entry list `entriesOf` (which lists the kept
rows in input order), and filtering on any exact total value returns the
entries in their input order — the sort is stable on ties. -/
theorem c4_sorted_stable (t : Table) :
    ((calculate_leaderboard t).Pairwise
        (fun a b => b.total_score ≤ a.total_score)) ∧
      (calculate_leaderboard t).Perm (entriesOf t) ∧
      ∀ q : ℤ,
        (calculate_leaderboard t).filter (fun p => decide (p.total_score = q)) =
          (entriesOf t).filter (fun p => decide (p.total_score = q)) := by
  refine ⟨leaderboard_pairwise t, leaderboard_perm_entriesOf t, ?_⟩
  intro q
  unfold calculate_leaderboard
  split_ifs with h1 h2
  · rw [entriesOf, List.isEmpty_iff.mp h1]; rfl
  · rw [entriesOf_dateCols_nil (List.isEmpty_iff.mp h2)]
  · exact filter_insertionSort q _

/-- Claim C6: every record of the returned leaderboard has
`games_played ≥ 1` (players whose scores are all zero or below are
excluded), and a table without data rows yields the empty leaderboard. -/
theorem c6_games_played_pos (t : Table) :
    (∀ p ∈ calculate_leaderboard t, 1 ≤ p.games_played) ∧
      (t.rows = [] → calculate_leaderboard t = []) := by
  constructor
  · intro p hp
    obtain ⟨r, -, hr⟩ := mem_leaderboard_iff.mp hp
    obtain ⟨-, hg, rfl⟩ := playerEntry_eq_some_iff.mp hr
    exact hg
  · intro h
    unfold calculate_leaderboard
    rw [h]
    rfl

/-- Witness for C6: the first record of a concrete leaderboard has at least
one game played, and a concrete rowless table maps to the empty list. -/
theorem c6_games_played_pos_witness :
    1 ≤ ((calculate_leaderboard tableWin).getD 0 default).games_played ∧
      calculate_leaderboard ⟨["01-Jan-2025"], []⟩ = [] :=
  ⟨(c6_games_played_pos tableWin).1 _
      (by rw [List.getD_eq_getElem _ default (by decide)]
          exact List.getElem_mem _),
    (c6_games_played_pos ⟨["01-Jan-2025"], []⟩).2 rfl⟩

/-- Claim C10: a table with data rows but no date columns yields the empty
leaderboard rather than an error. -/
theorem c10_no_date_columns (t : Table) (_hrows : t.rows ≠ [])
    (hcols : t.dateCols = []) : calculate_leaderboard t = [] := by
  unfold calculate_leaderboard
  split_ifs with h1 h2
  · rfl
  · rfl
  · exact absurd (List.isEmpty_iff.mpr hcols) (by simpa using h2)

/-- Witness for C10 at a concrete one-row table with no date columns. -/
theorem c10_no_date_columns_witness : calculate_leaderboard tableNoDates = [] :=
  c10_no_date_columns tableNoDates (by decide) rfl

theorem positivesOf_pos {t : Table} {r : Row} :
    ∀ x ∈ positivesOf t r, 0 < x := by
  intro x hx
  have := (List.mem_filter.mp hx).2
  simpa using this

/-- Every date column that earns a first-place credit has a strictly
positive score, hence counts as a game played: `first_place_count` never
exceeds `games_played`. -/
theorem firstPlaceCountOf_le_gamesPlayedOf (t : Table) (r : Row) :
    firstPlaceCountOf t r ≤ gamesPlayedOf t r := by
  rw [firstPlaceCountOf, gamesPlayedOf, positivesOf, cellsOf,
    ← List.countP_eq_length_filter, List.countP_map]
  apply List.countP_mono_left
  intro j _ hcred
  have := (firstPlaceCredit_eq_true_iff.mp hcred).1
  simpa [Function.comp] using this

/-- Claim C3: every record of the returned leaderboard comes from an input
row, with total_score the sum of that row's strictly positive cell scores,
games_played their count, and best_score their maximum (a member that
bounds them all); zero-or-below cells contribute to none of these. -/
theorem c3_row_statistics (t : Table) (p : PlayerStats)
    (hp : p ∈ calculate_leaderboard t) :
    ∃ r ∈ t.rows,
      p.player = stripStr r.name ∧
      p.total_score = (positivesOf t r).sum ∧
      p.games_played = (positivesOf t r).length ∧
      p.best_score ∈ positivesOf t r ∧
      ∀ x ∈ positivesOf t r, x ≤ p.best_score := by
  obtain ⟨r, hr, he⟩ := mem_leaderboard_iff.mp hp
  obtain ⟨-, hg, rfl⟩ := playerEntry_eq_some_iff.mp he
  have hne : positivesOf t r ≠ [] := by
    intro h
    rw [gamesPlayedOf, h] at hg
    exact absurd hg (by simp)
  exact ⟨r, hr, rfl, rfl, rfl, listMax_mem hne positivesOf_pos,
    fun x hx => le_listMax hx⟩

/-- Witness for C3: the sole record of a concrete leaderboard satisfies the
per-row statistics correspondence. -/
theorem c3_row_statistics_witness :
    ∃ r ∈ tableSolo.rows,
      ((calculate_leaderboard tableSolo).getD 0 default).player = stripStr r.name ∧
      ((calculate_leaderboard tableSolo).getD 0 default).total_score =
        (positivesOf tableSolo r).sum ∧
      ((calculate_leaderboard tableSolo).getD 0 default).games_played =
        (positivesOf tableSolo r).length ∧
      ((calculate_leaderboard tableSolo).getD 0 default).best_score ∈
        positivesOf tableSolo r ∧
      ∀ x ∈ positivesOf tableSolo r,
        x ≤ ((calculate_leaderboard tableSolo).getD 0 default).best_score :=
  c3_row_statistics tableSolo _
    (by rw [List.getD_eq_getElem _ default (by decide)]
        exact List.getElem_mem _)

/-- Claim C5: `win_rate` equals `first_place_count / games_played × 100`
exactly (score arithmetic modelled as exact rationals) and always lies in
the closed interval [0, 100]. -/
theorem c5_win_rate (t : Table) (p : PlayerStats)
    (hp : p ∈ calculate_leaderboard t) :
    p.win_rate = ((p.first_place_count : ℚ) / (p.games_played : ℚ)) * 100 ∧
      0 ≤ p.win_rate ∧ p.win_rate ≤ 100 := by
  obtain ⟨r, -, he⟩ := mem_leaderboard_iff.mp hp
  obtain ⟨-, hg, rfl⟩ := playerEntry_eq_some_iff.mp he
  have hfg := firstPlaceCountOf_le_gamesPlayedOf t r
  refine ⟨rfl, ?_, ?_⟩
  · show (0 : ℚ) ≤ ((firstPlaceCountOf t r : ℚ) / (gamesPlayedOf t r : ℚ)) * 100
    positivity
  have hgpos : (0 : ℚ) < (gamesPlayedOf t r : ℚ) := by exact_mod_cast hg
  have hle : ((firstPlaceCountOf t r : ℚ)) ≤ (gamesPlayedOf t r : ℚ) := by
    exact_mod_cast hfg
  have hdiv : ((firstPlaceCountOf t r : ℚ) / (gamesPlayedOf t r : ℚ)) ≤ 1 := by
    rw [div_le_one hgpos]
    exact hle
  calc ((firstPlaceCountOf t r : ℚ) / (gamesPlayedOf t r : ℚ)) * 100
      ≤ 1 * 100 := by
        exact mul_le_mul_of_nonneg_right hdiv (by norm_num)
    _ = 100 := by norm_num

/-- Witness for C5: the leading record of a concrete leaderboard has its
win rate given by the exact formula and inside [0, 100]. -/
theorem c5_win_rate_witness :
    ((calculate_leaderboard tableTie).getD 0 default).win_rate =
        ((((calculate_leaderboard tableTie).getD 0 default).first_place_count : ℚ) /
          (((calculate_leaderboard tableTie).getD 0 default).games_played : ℚ)) * 100 ∧
      0 ≤ ((calculate_leaderboard tableTie).getD 0 default).win_rate ∧
      ((calculate_leaderboard tableTie).getD 0 default).win_rate ≤ 100 :=
  c5_win_rate tableTie _
    (by rw [List.getD_eq_getElem _ default (by decide)]
        exact List.getElem_mem _)

/-- Claim C7: viewed as a predicate on the current WAT (UTC+1) time,
`should_send_alert` is true exactly when that time is not before the epoch
2025-07-21 17:00 WAT, falls on a Monday with hour 17, and an even number of
whole weeks has elapsed since the epoch; in particular it fires at the
epoch, not one week later, and again two weeks later. -/
theorem c7_alert_schedule :
    (∀ wat : ℤ, should_send_alert wat = true ↔ alertSpec wat) ∧
      should_send_alert 0 = true ∧
      should_send_alert 604800 = false ∧
      should_send_alert 1209600 = true := by
  refine ⟨?_, by decide, by decide, by decide⟩
  intro wat
  unfold should_send_alert alertSpec watWeekday watHour watMinute daysSinceStart
  split_ifs with h1 h2 h3
  · constructor
    · intro h
      exact absurd h (by simp)
    · intro h
      exact absurd h1 (not_lt.mpr h.1)
  · constructor
    · intro h
      exact absurd h (by simp)
    · intro h
      rcases h2 with h2 | h2
      · exact absurd h.2.1 h2
      · exact absurd h.2.2.1 h2
  · rw [decide_eq_true_eq]
    omega
  · exact absurd (by omega) h3

/-- Claim C8: a raw grid whose header row lacks the `Name` column is mapped
by `read_data` to the empty result instead of an error. -/
theorem c8_missing_name_header (parse : String → ℤ)
    (values : List (List String)) (h : "Name" ∉ values.headD []) :
    read_data parse values = none := by
  match values with
  | [] => rfl
  | headers :: dataRows =>
    have hn : "Name" ∉ headers := by simpa using h
    simp [read_data, hn]

/-- Witness for C8 at a concrete grid headed `Player` instead of `Name`. -/
theorem c8_missing_name_header_witness :
    "Name" ∉ ([["Player", "01-Jan-2025"], ["Alice", "100"]] :
        List (List String)).headD [] ∧
      read_data (fun _ => 0) [["Player", "01-Jan-2025"], ["Alice", "100"]] = none :=
  ⟨by decide, c8_missing_name_header _ _ (by decide)⟩

theorem dashboardBadges_getD (lb : List PlayerStats) (i : ℕ)
    (h : i < lb.length) :
    (dashboardBadges lb).getD i [] =
      badgesFor (i + 1) (lb.get ⟨i, h⟩).first_place_count
        (lb.get ⟨i, h⟩).best_score := by
  unfold dashboardBadges
  rw [List.getD_eq_getElem _ _ (by simpa using h)]
  simp [h]

theorem mem_badgesFor (rank fp : ℕ) (best : ℤ) :
    ("🏆" ∈ badgesFor rank fp best ↔ rank = 1) ∧
    ("🥈" ∈ badgesFor rank fp best ↔ rank = 2) ∧
    ("🥉" ∈ badgesFor rank fp best ↔ rank = 3) ∧
    ("🔥" ∈ badgesFor rank fp best ↔ 2 ≤ fp) ∧
    ("⭐" ∈ badgesFor rank fp best ↔ 9000 ≤ best) := by
  unfold badgesFor
  split_ifs <;> simp_all

/-- Claim C9: the badge set rendered for the row at index `i` (rank `i+1`)
contains 🏆, 🥈 and 🥉 exactly at ranks 1, 2 and 3, contains 🔥 exactly
when the player's first_place_count is at least 2, and contains ⭐ exactly
when the player's best_score is at least 9000. -/
theorem c9_badges (lb : List PlayerStats) (i : ℕ) (h : i < lb.length) :
    ("🏆" ∈ (dashboardBadges lb).getD i [] ↔ i + 1 = 1) ∧
    ("🥈" ∈ (dashboardBadges lb).getD i [] ↔ i + 1 = 2) ∧
    ("🥉" ∈ (dashboardBadges lb).getD i [] ↔ i + 1 = 3) ∧
    ("🔥" ∈ (dashboardBadges lb).getD i [] ↔
      2 ≤ (lb.get ⟨i, h⟩).first_place_count) ∧
    ("⭐" ∈ (dashboardBadges lb).getD i [] ↔
      9000 ≤ (lb.get ⟨i, h⟩).best_score) := by
  rw [dashboardBadges_getD lb i h]
  exact mem_badgesFor (i + 1) _ _

/-- A concrete leaderboard record used to witness the badge claim. -/
def badgePlayer : PlayerStats := ⟨"Alice", 100, 1, 9500, 100, 100, 2, [], []⟩

/-- Witness for C9 at a one-row leaderboard whose player qualifies for the
🏆, 🔥 and ⭐ badges. -/
theorem c9_badges_witness :
    ("🏆" ∈ (dashboardBadges [badgePlayer]).getD 0 [] ↔ 0 + 1 = 1) ∧
    ("🥈" ∈ (dashboardBadges [badgePlayer]).getD 0 [] ↔ 0 + 1 = 2) ∧
    ("🥉" ∈ (dashboardBadges [badgePlayer]).getD 0 [] ↔ 0 + 1 = 3) ∧
    ("🔥" ∈ (dashboardBadges [badgePlayer]).getD 0 [] ↔
      2 ≤ ([badgePlayer].get ⟨0, by decide⟩).first_place_count) ∧
    ("⭐" ∈ (dashboardBadges [badgePlayer]).getD 0 [] ↔
      9000 ≤ ([badgePlayer].get ⟨0, by decide⟩).best_score) :=
  c9_badges [badgePlayer] 0 (by decide)

end Kahoot
